import Mathlib

/-!
Verification of the credit-card statement parser core

Shallow embedding of `src/backend/parser.py` (class `CreditCardParser`) and
`src/backend/app.py` (`generate_insights`) from the repository
`manoah07/credit-card-parser`, together with theorems settling the frozen
claims C1..C10 about the natural-language specification.

Python strings are modelled as `List Char`; machine floats used by the code
appear only in quantities whose displayed values are exact at the observed
precision, and are modelled by exact rationals (`ℚ`), as noted at each site.
External effects (PDF decoding, OCR, the remote model call) are modelled as
explicit inputs: an `Except`/`Option` value standing for the outcome the
collaborator would have produced, so that `parse` becomes a total function of
those outcomes, mirroring the source line by line.
-/

namespace CCParse

set_option maxRecDepth 16000

attribute [local semireducible] Rat.mul Rat.inv Rat.add Rat.sub

/-- Python strings, modelled as lists of characters. -/
abbrev Str := List Char

/-- Coerce a Lean string literal to the `Str` model. -/
def pys (s : String) : Str := s.data

/-- The whitespace characters stripped by Python's `str.strip()` (ASCII subset;
the statements in this development use only these). -/
def pyWs : List Char := [' ', '\t', '\n', '\r', '\x0b', '\x0c']

/-- Python `str.strip()`: remove leading and trailing whitespace. -/
def pyStrip (s : Str) : Str :=
  ((s.dropWhile (fun c => c ∈ pyWs)).reverse.dropWhile (fun c => c ∈ pyWs)).reverse

/-- Python `str.lower()` (ASCII model, sufficient for the texts considered here). -/
def pyLower (s : Str) : Str := s.map Char.toLower

/-- Python `needle in hay` for Python strings: substring containment. -/
def containsSub (hay needle : Str) : Bool :=
  needle.isPrefixOf hay ||
    match hay with
    | [] => false
    | _ :: t => containsSub t needle

/-- Fuel-driven worker for `removeAll`; a non-empty match or a kept character
consumes at least one character per step, so fuel `s.length` suffices. -/
def removeAllF (fuel : Nat) (target : Str) (s : Str) : Str :=
  match fuel with
  | 0 => s
  | f + 1 =>
    match s with
    | [] => []
    | c :: rest =>
      if target ≠ [] ∧ target.isPrefixOf (c :: rest) then
        removeAllF f target ((c :: rest).drop target.length)
      else
        c :: removeAllF f target rest

/-- Python `s.replace(target, '')` for a non-empty `target`: remove every
(left-to-right, non-overlapping) occurrence of `target`. -/
def removeAll (target s : Str) : Str := removeAllF s.length target s

/-- Join a list of strings with `"\n"` (Python `"\n".join(texts)`). -/
def joinNL (xs : List Str) : Str := List.intercalate ['\n'] xs

/-!
JSON values and `json.loads`

A faithful executable model of Python's `json.loads` on textual input:
values are null, booleans, numbers, strings (with the standard escapes),
arrays and objects; insignificant whitespace is `' '`, `'\t'`, `'\n'`, `'\r'`;
the whole input must be consumed.  Number literals are kept as their source
lexeme (the claims under verification never observe a numeric field value's
arithmetic content, only its truthiness and its `str()` image; both are
derived from the lexeme below).  Objects follow `dict` semantics: a duplicate
key overwrites the earlier value in place.
-/

/-- A parsed JSON value (Python object produced by `json.loads`). -/
inductive JVal where
  | jnull : JVal
  | jbool : Bool → JVal
  | jnum : Str → JVal
  | jstr : Str → JVal
  | jarr : List JVal → JVal
  | jobj : List (Str × JVal) → JVal

/-- A Python dict with string keys, as returned by `json.loads` on an object. -/
abbrev Obj := List (Str × JVal)

/-- Python `d.get(k)` / `k in d`: first (unique, by construction) binding of `k`. -/
def objGet (d : Obj) (k : Str) : Option JVal :=
  match d with
  | [] => none
  | (k', v) :: rest => if k' = k then some v else objGet rest k

/-- Python `d[k] = v`: overwrite in place when the key exists, else append
(insertion-order semantics of a Python dict). -/
def objSet (d : Obj) (k : Str) (v : JVal) : Obj :=
  match d with
  | [] => [(k, v)]
  | (k', v') :: rest => if k' = k then (k', v) :: rest else (k', v') :: objSet rest k v

/-- Python truthiness of a JSON value (used by `not data.get('issuer')` and
`data.get(f)`).  A number is falsy exactly when its mantissa digits are all
zero (`0`, `-0`, `0.00`, `0e5`, ...). -/
def pyTruthy : JVal → Bool
  | .jnull => false
  | .jbool b => b
  | .jnum lex =>
      ((lex.takeWhile (fun c => c ≠ 'e' ∧ c ≠ 'E')).filter Char.isDigit).any (fun c => c ≠ '0')
  | .jstr s => !s.isEmpty
  | .jarr xs => !xs.isEmpty
  | .jobj kvs => !kvs.isEmpty

/-- Python `value == s` for a string literal `s`: only a `str` value can
compare equal to a string. -/
def jeqStr (v : JVal) (s : Str) : Bool :=
  match v with
  | .jstr t => t = s
  | _ => false

/-- Canonical digit string of a natural number (for `str()` of an integer). -/
def natDigitsStr (n : Nat) : Str := (Nat.toDigits 10 n)

/-- Python `str()` of a JSON value.  Integer-lexeme numbers render through
`int`'s canonical form; a number with a fractional part or exponent would be
a Python float, whose `repr` is outside this model — its lexeme is used
instead (no claim observes such a value; every float that downstream code
would accept fails `float()` no differently under the lexeme).  Containers
render as a bracketed placeholder: the only downstream use is `float(str(v))`,
which fails on any Python container `repr` just as it fails on the
placeholder. -/
def pyStr : JVal → Str
  | .jnull => pys "None"
  | .jbool true => pys "True"
  | .jbool false => pys "False"
  | .jnum lex =>
      if lex.all (fun c => c.isDigit ∨ c = '-') then
        match lex with
        | '-' :: ds => if ds.all (fun c => c = '0') then pys "0" else '-' :: ds
        | ds => ds
      else lex
  | .jstr s => s
  | .jarr _ => pys "[...]"
  | .jobj _ => pys "\x7b...\x7d"

/-- JSON insignificant whitespace. -/
def jsonWs : List Char := [' ', '\t', '\n', '\r']

/-- Drop leading JSON whitespace. -/
def skipWs (s : Str) : Str := s.dropWhile (fun c => c ∈ jsonWs)

/-- Hexadecimal digit value. -/
def hexVal (c : Char) : Option Nat :=
  if '0' ≤ c ∧ c ≤ '9' then some (c.toNat - '0'.toNat)
  else if 'a' ≤ c ∧ c ≤ 'f' then some (c.toNat - 'a'.toNat + 10)
  else if 'A' ≤ c ∧ c ≤ 'F' then some (c.toNat - 'A'.toNat + 10)
  else none

/-- Decode the body of a JSON string after the opening quote: returns the
decoded content and the remainder after the closing quote.  `\uXXXX` decodes
to the corresponding code point (surrogate-pair combination is not modelled;
no statement here exercises it). -/
def strBody (fuel : Nat) (s : Str) : Option (Str × Str) :=
  match fuel with
  | 0 => none
  | f + 1 =>
    match s with
    | [] => none
    | c :: rest =>
      if c = '"' then some ([], rest)
      else if c = '\\' then
        match rest with
        | [] => none
        | e :: r2 =>
          let cont := fun (ch : Char) (r : Str) =>
            (strBody f r).map (fun p => (ch :: p.1, p.2))
          if e = '"' then cont '"' r2
          else if e = '\\' then cont '\\' r2
          else if e = '/' then cont '/' r2
          else if e = 'b' then cont '\x08' r2
          else if e = 'f' then cont '\x0c' r2
          else if e = 'n' then cont '\n' r2
          else if e = 'r' then cont '\r' r2
          else if e = 't' then cont '\t' r2
          else if e = 'u' then
            match r2 with
            | h1 :: h2 :: h3 :: h4 :: r3 =>
              match hexVal h1, hexVal h2, hexVal h3, hexVal h4 with
              | some a, some b, some c3, some d =>
                cont (Char.ofNat (((a * 16 + b) * 16 + c3) * 16 + d)) r3
              | _, _, _, _ => none
            | _ => none
          else none
      else if c.toNat < 0x20 then none
      else (strBody f rest).map (fun p => (c :: p.1, p.2))

/-- Lex a JSON number starting at `s`: returns the lexeme and the remainder. -/
def lexNumber (s : Str) : Option (Str × Str) :=
  let intPart : Str → Option (Str × Str) := fun t =>
    let ds := t.takeWhile Char.isDigit
    let rest := t.dropWhile Char.isDigit
    match ds with
    | [] => none
    | ['0'] => some (['0'], rest)
    | '0' :: _ => none
    | _ => some (ds, rest)
  let fracPart : Str → Option (Str × Str) := fun t =>
    match t with
    | '.' :: t2 =>
      let ds := t2.takeWhile Char.isDigit
      if ds = [] then none else some ('.' :: ds, t2.dropWhile Char.isDigit)
    | _ => some ([], t)
  let expPart : Str → Option (Str × Str) := fun t =>
    match t with
    | e :: t2 =>
      if e = 'e' ∨ e = 'E' then
        let (sgn, t3) := match t2 with
          | '+' :: t3 => (['+'], t3)
          | '-' :: t3 => (['-'], t3)
          | _ => (([] : Str), t2)
        let ds := t3.takeWhile Char.isDigit
        if ds = [] then none else some (e :: sgn ++ ds, t3.dropWhile Char.isDigit)
      else some ([], t)
    | [] => some ([], t)
  let (sgn, t1) := match s with
    | '-' :: t1 => (['-'], t1)
    | _ => (([] : Str), s)
  match intPart t1 with
  | none => none
  | some (i, t2) =>
    match fracPart t2 with
    | none => none
    | some (fr, t3) =>
      match expPart t3 with
      | none => none
      | some (ex, t4) => some (sgn ++ i ++ fr ++ ex, t4)

mutual

/-- Parse one JSON value at the head of `s` (no leading whitespace). -/
def parseVal (fuel : Nat) (s : Str) : Option (JVal × Str) :=
  match fuel with
  | 0 => none
  | f + 1 =>
    match s with
    | [] => none
    | c :: rest =>
      if c = '{' then parseObjBody f (skipWs rest)
      else if c = '[' then parseArrBody f (skipWs rest)
      else if c = '"' then (strBody f rest).map (fun p => (.jstr p.1, p.2))
      else if (pys "true").isPrefixOf s then some (.jbool true, s.drop 4)
      else if (pys "false").isPrefixOf s then some (.jbool false, s.drop 5)
      else if (pys "null").isPrefixOf s then some (.jnull, s.drop 4)
      else if c = '-' ∨ c.isDigit then (lexNumber s).map (fun p => (.jnum p.1, p.2))
      else none

/-- Parse the members of an object after `'{'` and leading whitespace. -/
def parseObjBody (fuel : Nat) (s : Str) : Option (JVal × Str) :=
  match fuel with
  | 0 => none
  | f + 1 =>
    match s with
    | '}' :: rest => some (.jobj [], rest)
    | _ => (parseMembers f s []).map (fun p => (.jobj p.1, p.2))

/-- Parse one or more `"key": value` members, accumulating with `dict`
update semantics; consumes the closing `'}'`. -/
def parseMembers (fuel : Nat) (s : Str) (acc : Obj) : Option (Obj × Str) :=
  match fuel with
  | 0 => none
  | f + 1 =>
    match s with
    | '"' :: rest =>
      match strBody f rest with
      | none => none
      | some (key, r1) =>
        match skipWs r1 with
        | ':' :: r2 =>
          match parseVal f (skipWs r2) with
          | none => none
          | some (v, r3) =>
            let acc2 := objSet acc key v
            match skipWs r3 with
            | ',' :: r4 => parseMembers f (skipWs r4) acc2
            | '}' :: r4 => some (acc2, r4)
            | _ => none
        | _ => none
    | _ => none

/-- Parse the elements of an array after `'['` and leading whitespace. -/
def parseArrBody (fuel : Nat) (s : Str) : Option (JVal × Str) :=
  match fuel with
  | 0 => none
  | f + 1 =>
    match s with
    | ']' :: rest => some (.jarr [], rest)
    | _ => (parseElems f s).map (fun p => (.jarr p.1, p.2))

/-- Parse one or more array elements; consumes the closing `']'`. -/
def parseElems (fuel : Nat) (s : Str) : Option (List JVal × Str) :=
  match fuel with
  | 0 => none
  | f + 1 =>
    match parseVal f s with
    | none => none
    | some (v, r1) =>
      match skipWs r1 with
      | ',' :: r2 =>
        match parseElems f (skipWs r2) with
        | none => none
        | some (vs, r3) => some (v :: vs, r3)
      | ']' :: r2 => some ([v], r2)
      | _ => none

end

/-- Model of `json.loads`: parse a complete JSON document; the error message is a
simplified stand-in for Python's positional diagnostics (no claim quotes the
decode message's text). -/
def jsonLoads (s : Str) : Except Str JVal :=
  match parseVal (4 * s.length + 8) (skipWs s) with
  | none => .error (pys "Expecting value")
  | some (v, rest) =>
    if skipWs rest = [] then .ok v else .error (pys "Extra data")

/-- The opening-brace character. -/
def lbrace : Char := Char.ofNat 123

/-- The closing-brace character. -/
def rbrace : Char := Char.ofNat 125

/-!
Text Acquisition — `CreditCardParser.extract_text_from_pdf`

A `Page` carries the two collaborator outcomes the method consults: the
embedded text `page.extract_text()` would return (`None` possible), and the
outcome OCR (`page.to_image(resolution=300)` + `pytesseract.image_to_string`)
would produce were it invoked.  A document that cannot be opened is an
`Except.error` at the document level (`pdfplumber.open` raising).
-/

/-- One PDF page, by the outcomes its collaborators would produce. -/
structure Page where
  embedded : Option Str
  ocr : Except Str Str

/-- The OCR-fallback trigger: `if not text or len(text.strip()) < 40`. -/
def ocrInvoked (p : Page) : Bool :=
  match p.embedded with
  | none => true
  | some t => t.isEmpty || decide ((pyStrip t).length < 40)

/-- The per-page resolved text appended to `texts` (`texts.append(text or "")`;
a failed OCR substitutes the empty string). -/
def resolvePage (p : Page) : Str :=
  if ocrInvoked p then
    match p.ocr with
    | .ok t => t
    | .error _ => []
  else
    p.embedded.getD []

/-- The wrapped document-read failure message. -/
def pdfErrMsg (e : Str) : Str := pys "Error reading PDF: " ++ e

/-- Source method `extract_text_from_pdf`: join the per-page texts with newlines, or wrap a
document-open failure as `Exception("Error reading PDF: ...")`. -/
def extract_text_from_pdf (pdfOpen : Except Str (List Page)) : Except Str Str :=
  match pdfOpen with
  | .error e => .error (pdfErrMsg e)
  | .ok pages => .ok (joinNL (pages.map resolvePage))

/-!
Model Invocation — `CreditCardParser.query_groq`

The remote completion's outcome is an explicit input `svc`; the credential is
the constructor-time `GROQ_API_KEY` (`None` when unset, possibly empty).
-/

/-- Source guard `if not self.groq_api_key`: the credential is missing or empty. -/
def credMissing (apiKey : Option Str) : Bool :=
  match apiKey with
  | none => true
  | some k => k.isEmpty

/-- The missing-credential message. -/
def groqKeyMsg : Str := pys "GROQ_API_KEY not configured. Please add it to .env file."

/-- The wrapped model-call failure message. -/
def groqErrMsg (e : Str) : Str := pys "Groq API Error: " ++ e

/-- Source method `query_groq`: raise on a missing credential before any network use; wrap a
transport/service failure as `Exception("Groq API Error: ...")`. -/
def query_groq (apiKey : Option Str) (svc : Except Str Str) : Except Str Str :=
  if credMissing apiKey then
    .error groqKeyMsg
  else
    match svc with
    | .ok r => .ok r
    | .error e => .error (groqErrMsg e)

/-!
Response Repair, Field Normalizer, Completeness Scorer — `parse` steps 4-7
-/

/-- The missing-value sentinel `"Not found"`. -/
def sentinel : Str := pys "Not found"

/-- The `'issuer'` key. -/
def issuerKey : Str := pys "issuer"

/-- The fixed required-field set of step 7 (issuer excluded). -/
def requiredFields : List Str :=
  [pys "card_last4", pys "statement_date", pys "due_date",
   pys "total_balance", pys "minimum_payment"]

/-- Source slice `response_text[response_text.find(lbrace) : response_text.rfind(rbrace) + 1]`.
Dropping up to the first opening brace is exactly `drop (find ...)`; removing
everything after the last closing brace is exactly trimming, from the right,
the longest brace-free suffix — including Python's empty slice when the last
closing brace precedes the first opening brace (end index below start). -/
def braceSlice (t : Str) : Str :=
  ((t.dropWhile (fun c => c ≠ lbrace)).reverse.dropWhile (fun c => c ≠ rbrace)).reverse

/-- Step 5's keyword cascade over the lower-cased full document text. -/
def inferIssuer (pdfText : Str) : Str :=
  let txt := pyLower pdfText
  if containsSub txt (pys "hsbc") then pys "HSBC"
  else if containsSub txt (pys "chase") then pys "Chase"
  else if containsSub txt (pys "amex") || containsSub txt (pys "american express") then
    pys "American Express"
  else if containsSub txt (pys "citi") then pys "Citi"
  else if containsSub txt (pys "discover") then pys "Discover"
  else if containsSub txt (pys "capital one") then pys "Capital One"
  else pys "Unknown"

/-- Step 5's trigger: `if not data.get('issuer') or data['issuer'] == "Not found"`. -/
def issuerMissing (d : Obj) : Bool :=
  match objGet d issuerKey with
  | none => true
  | some v => !pyTruthy v || jeqStr v sentinel

/-- Step 5: infer the issuer from the document text when the model's value is
missing, falsy or the sentinel. -/
def repairIssuer (d : Obj) (pdfText : Str) : Obj :=
  if issuerMissing d then objSet d issuerKey (.jstr (inferIssuer pdfText)) else d

/-- Step 6's per-value cleanup:
`str(v).replace('$', '').replace('₹', '').replace(',', '').strip()`. -/
def cleanVal (v : JVal) : JVal :=
  .jstr (pyStrip (removeAll (pys ",") (removeAll (pys "₹") (removeAll (pys "$") (pyStr v)))))

/-- Step 6 for one key: rewrite the value when present and not the sentinel. -/
def cleanKey (d : Obj) (k : Str) : Obj :=
  match objGet d k with
  | none => d
  | some v => if jeqStr v sentinel then d else objSet d k (cleanVal v)

/-- Step 6 over `['total_balance', 'minimum_payment']`. -/
def cleanNumeric (d : Obj) : Obj :=
  cleanKey (cleanKey d (pys "total_balance")) (pys "minimum_payment")

/-- Step 7's per-field predicate: `data.get(f) and data[f] != "Not found"`
(a missing or Python-falsy value does not count). -/
def fieldOk (d : Obj) (f : Str) : Bool :=
  match objGet d f with
  | none => false
  | some v => pyTruthy v && !jeqStr v sentinel

/-- Step 7's `extracted` count over the five required fields. -/
def countExtracted (d : Obj) : Nat := (requiredFields.filter (fieldOk d)).length

/-- Floor of a rational as an integer (executable; the denominator of a `ℚ`
is positive, so flooring division of the numerator is the floor). -/
def ratFloor (q : ℚ) : ℤ := Int.fdiv q.num q.den

/-- Ceiling of a rational as an integer. -/
def ratCeil (q : ℚ) : ℤ := -Int.fdiv (-q.num) q.den

/-- Round-half-even at integer precision (Python's `round`); the values this
development applies it to are never at a half, where all conventions agree. -/
def bankersRound (q : ℚ) : ℤ :=
  let f := ratFloor q
  let r := q - (f : ℚ)
  if r < 1 / 2 then f
  else if 1 / 2 < r then f + 1
  else if f % 2 = 0 then f else f + 1

/-- Python `round(x, 1)`.  The float detour `(extracted / 5) * 100` the source
takes lands, after this rounding, on the same multiples of 20 as the exact
rational computation, so `ℚ` is a faithful model at this observation. -/
def roundTo1 (q : ℚ) : ℚ := (bankersRound (q * 10) : ℚ) / 10

/-- The dictionary `parse` returns (absent keys are `none`). -/
structure ParseResult where
  success : Bool
  data : Option Obj := none
  extracted_fields : Option Nat := none
  total_fields : Option Nat := none
  success_rate : Option ℚ := none
  method : Option Str := none
  error : Option Str := none
  raw_response : Option Str := none

/-- The failure dictionary with keys success (False) and error (e). -/
def mkFail (e : Str) : ParseResult := { success := false, error := some e }

/-- The success dictionary built at the end of step 7. -/
def successFrom (kvs : Obj) (pdfText : Str) : ParseResult :=
  let data := cleanNumeric (repairIssuer kvs pdfText)
  let extracted := countExtracted data
  { success := true
    data := some data
    extracted_fields := some extracted
    total_fields := some 5
    success_rate := some (roundTo1 ((extracted : ℚ) / 5 * 100))
    method := some (pys "AI-Powered (Groq Llama-3.1)") }

/-- The `ValueError` message raised when no brace is found. -/
def noJsonMsg : Str := pys "No JSON object found in AI response"

/-- The empty-extraction early return's message. -/
def noTextMsg : Str := pys "Could not extract text from PDF"

/-- The failure dictionary returned by the inner `except json.JSONDecodeError`:
`{'success': False, 'error': 'AI returned invalid JSON: ...', 'raw_response': ...}`. -/
def decodeFail (responseText dmsg : Str) : ParseResult :=
  { success := false
    error := some (pys "AI returned invalid JSON: " ++ dmsg)
    raw_response := some responseText }

/-- Steps 4-7 (the inner `try`): brace-slice and decode the model output, then
repair, clean and score.  A `json.JSONDecodeError` is caught here and returned
as a failure dictionary retaining the raw response; the `ValueError` raised
when a brace is absent escapes to the outer handler as an exception. -/
def analyzeResponse (responseText pdfText : Str) : Except Str ParseResult :=
  if lbrace ∈ responseText ∧ rbrace ∈ responseText then
    match jsonLoads (braceSlice responseText) with
    | .error m => .ok (decodeFail responseText m)
    | .ok (.jobj kvs) => .ok (successFrom kvs pdfText)
    | .ok _ =>
        -- Unreachable for outputs of `braceSlice`: a non-empty slice starts
        -- with an opening brace, so a successful decode yields an object.
        -- Python would raise `AttributeError` at `data.get('issuer')`,
        -- caught by the outer handler.
        .error (pys "AttributeError: no attribute get")
  else
    .error noJsonMsg

/-- The body of `parse`'s outer `try`: `Except.error` is a raised exception in
flight, `Except.ok` a returned dictionary (which may itself be a failure
value, e.g. the empty-text early return). -/
def parseInner (apiKey : Option Str) (pdfOpen : Except Str (List Page))
    (svc : Except Str Str) : Except Str ParseResult :=
  match extract_text_from_pdf pdfOpen with
  | .error e => .error e
  | .ok pdfText =>
    if pyStrip pdfText = [] then
      .ok (mkFail noTextMsg)
    else
      match query_groq apiKey svc with
      | .error e => .error e
      | .ok responseText => analyzeResponse responseText pdfText

/-- Source method `CreditCardParser.parse`: the outer `except Exception` turns any raised
exception into `{'success': False, 'error': str(e)}`. -/
def parse (apiKey : Option Str) (pdfOpen : Except Str (List Page))
    (svc : Except Str Str) : ParseResult :=
  match parseInner apiKey pdfOpen svc with
  | .ok r => r
  | .error e => mkFail e

/-!
Insight Generator — `generate_insights` in `src/backend/app.py`

The source file encodes the rupee sign as the literal three-character
sequence `‚Çπ` (U+201A U+00C7 U+03C0); it is reproduced verbatim.  The
arithmetic runs on Python floats; it is modelled over `ℚ`, exact at every
value displayed at two decimals in this development.
-/

/-- The currency marker appearing literally in `app.py`. -/
def rupee : Str := pys "‚Çπ"

/-- Python `str()` of an `int`. -/
def intStr (i : ℤ) : Str := (if i < 0 then ['-'] else []) ++ natDigitsStr i.natAbs

/-- Accumulate a digit string as a natural number. -/
def digitsToNat (ds : Str) : Nat := ds.foldl (fun a c => a * 10 + (c.toNat - '0'.toNat)) 0

/-- Python `float(s)` on text, as an exact rational: optional surrounding
whitespace, optional sign, a mantissa with at least one digit and at most one
point, and an optional exponent.  The special spellings `inf`/`nan` and
digit-group underscores are outside this model (no statement here reaches
them). -/
def pyFloat (s : Str) : Option ℚ :=
  let t := pyStrip s
  let sgnSplit : ℚ × Str := match t with
    | '-' :: r => (-1, r)
    | '+' :: r => (1, r)
    | _ => (1, t)
  let sgn := sgnSplit.1
  let t1 := sgnSplit.2
  let ip := t1.takeWhile Char.isDigit
  let t2 := t1.dropWhile Char.isDigit
  let fracSplit : Str × Str := match t2 with
    | '.' :: r => (r.takeWhile Char.isDigit, r.dropWhile Char.isDigit)
    | _ => ([], t2)
  let fp := fracSplit.1
  let t3 := if t2.head? = some '.' then fracSplit.2 else t2
  if (ip ++ fp).isEmpty then none
  else
    let mant : ℚ := sgn * ((digitsToNat (ip ++ fp) : ℚ) / ((10 : ℚ) ^ fp.length))
    match t3 with
    | [] => some mant
    | e :: r =>
      if e = 'e' ∨ e = 'E' then
        let expSplit : Bool × Str := match r with
          | '-' :: r1 => (true, r1)
          | '+' :: r1 => (false, r1)
          | _ => (false, r)
        let eds := expSplit.2.takeWhile Char.isDigit
        let r2 := expSplit.2.dropWhile Char.isDigit
        if eds.isEmpty || !r2.isEmpty then none
        else
          let ex : ℚ := (10 : ℚ) ^ digitsToNat eds
          some (if expSplit.1 then mant / ex else mant * ex)
      else none

/-- The numeric re-cleanup `generate_insights` applies before `float()`:
`str(v).replace(',', '').replace('‚Çπ', '').replace('$', '').strip()`. -/
def insClean (v : JVal) : Str :=
  pyStrip (removeAll (pys "$") (removeAll rupee (removeAll (pys ",") (pyStr v))))

/-- Source line `months_to_payoff = balance / min_payment if min_payment > 0 else 999`
(the guard is redundant under the enclosing positivity check; kept verbatim). -/
def monthsToPayoff (balance minp : ℚ) : ℚ := if 0 < minp then balance / minp else 999

/-- Source line `estimated_interest = balance * 0.18 * (months_to_payoff / 12)`. -/
def estimatedInterest (balance minp : ℚ) : ℚ :=
  balance * (18 / 100) * (monthsToPayoff balance minp / 12)

/-- Split a reversed digit string into groups of three. -/
def chunk3 : Str → List Str
  | a :: b :: c :: r => [a, b, c] :: chunk3 r
  | [] => []
  | s => [s]

/-- Thousands grouping of a digit string. -/
def commaGroup (ds : Str) : Str :=
  (List.intercalate [','] (chunk3 ds.reverse)).reverse

/-- Python `f'{q:,.2f}'`: two decimals (round-half-even; no value formatted in
this development sits at a half) with thousands separators. -/
def formatQ2 (q : ℚ) : Str :=
  let n := bankersRound (q * 100)
  let m := n.natAbs
  let fp := m % 100
  (if n < 0 then ['-'] else []) ++ commaGroup (natDigitsStr (m / 100)) ++
    ['.', Char.ofNat ('0'.toNat + fp / 10), Char.ofNat ('0'.toNat + fp % 10)]

/-- Python `int()` on a rational value: truncation toward zero. -/
def intOfPy (q : ℚ) : ℤ := if q < 0 then ratCeil q else ratFloor q

/-- One insight dictionary. -/
structure Insight where
  type : Str
  title : Str
  message : Str
  priority : Str
deriving DecidableEq

/-- Rule 1's insight. -/
def highBalanceInsight (balance : ℚ) : Insight :=
  { type := pys "warning"
    title := pys "High Balance Alert"
    message := pys "Balance of " ++ rupee ++ formatQ2 balance ++
      pys " is significant. Consider paying more than minimum."
    priority := pys "high" }

/-- Rule 2's insight. -/
def longPayoffInsight (balance minp : ℚ) : Insight :=
  { type := pys "critical"
    title := pys "Long Payoff Period"
    message := pys "Paying minimum only will take " ++
      intStr (intOfPy (monthsToPayoff balance minp)) ++
      pys " months. Estimated interest: " ++ rupee ++
      formatQ2 (estimatedInterest balance minp)
    priority := pys "critical" }

/-- Rule 3's insight. -/
def smartPaymentInsight (balance minp : ℚ) : Insight :=
  { type := pys "info"
    title := pys "Smart Payment Tip"
    message := pys "Pay " ++ rupee ++ formatQ2 (balance / 12) ++
      pys "/month to save ~" ++ rupee ++
      formatQ2 (estimatedInterest balance minp - balance * (18 / 100) * 1) ++
      pys " in interest"
    priority := pys "medium" }

/-- The three ordered rules, evaluated under the positivity guard. -/
def insightRules (balance minp : ℚ) : List Insight :=
  (if 5000 < balance then [highBalanceInsight balance] else []) ++
  (if 24 < monthsToPayoff balance minp then [longPayoffInsight balance minp] else []) ++
  (if minp < balance / 12 then
    (if 0 < estimatedInterest balance minp - balance * (18 / 100) * 1 then
      [smartPaymentInsight balance minp]
    else [])
  else [])

/-- The inner `try` of `generate_insights` after `float()` re-parsing: a
failed parse (`none`, the caught `ValueError`/`TypeError`) or a non-positive
value yields no insights; otherwise the rules fire in order. -/
def insightsFromVals (ob om : Option ℚ) : List Insight :=
  match ob, om with
  | some balance, some minp =>
    if 0 < balance ∧ 0 < minp then insightRules balance minp else []
  | _, _ => []

/-- Source function `generate_insights(data)`: when both keys are present, re-parse the two
normalized fields defensively and evaluate the rules; soft-fail otherwise. -/
def generate_insights (d : Obj) : List Insight :=
  match objGet d (pys "total_balance"), objGet d (pys "minimum_payment") with
  | some bv, some mv => insightsFromVals (pyFloat (insClean bv)) (pyFloat (insClean mv))
  | _, _ => []

/-!
Spec-side comparison definitions and sample inputs
-/

/-- The spec's description of issuer inference (§4.5, §9): an ordered list of
(issuer name, keyword set) pairs evaluated in fixed order over the lower-cased
text, first match wins, default `"Unknown"`.  Stated from the spec's words, to
be compared against the source's `inferIssuer` cascade. -/
def issuerRules : List (Str × List Str) :=
  [(pys "HSBC", [pys "hsbc"]),
   (pys "Chase", [pys "chase"]),
   (pys "American Express", [pys "amex", pys "american express"]),
   (pys "Citi", [pys "citi"]),
   (pys "Discover", [pys "discover"]),
   (pys "Capital One", [pys "capital one"])]

/-- First-match evaluation of `issuerRules` (the spec's rule engine). -/
def inferIssuerOrdered (t : Str) : Str :=
  let txt := pyLower t
  ((issuerRules.find? (fun r => r.2.any (fun kw => containsSub txt kw))).map
    Prod.fst).getD (pys "Unknown")

/-- The scorer exactly as claim C3 words it: count the required fields whose
value is present and not the sentinel (no truthiness requirement); to be
compared against the source's `fieldOk`-based count. -/
def specExtractedCount (d : Obj) : Nat :=
  (requiredFields.filter (fun f =>
    match objGet d f with
    | none => false
    | some v => !jeqStr v sentinel)).length

/-- A matched brace pair: a closing brace at or after the first opening brace
(the dropped prefix is brace-free, so membership after the drop is exactly
"some opening brace with a closing brace after it"). -/
def hasBracePair (t : Str) : Bool := rbrace ∈ t.dropWhile (fun c => c ≠ lbrace)

/-- A sample one-page digitally legible document (no issuer keyword in it). -/
def samplePdf : Except Str (List Page) :=
  .ok [{ embedded := some (pys "some long statement text exceeding forty characters for page one")
         ocr := .ok [] }]

/-- A sample configured credential. -/
def sampleKey : Option Str := some (pys "k")

/-- The acquired text of `samplePdf`. -/
def sampleText : Str := pys "some long statement text exceeding forty characters for page one"

/-- A 45-character embedded page text: ten letters followed by 35 spaces
(raw length 45 ≥ 40, stripped length 10 < 40). -/
def paddedPageText : Str := pys "aaaaaaaaaa" ++ List.replicate 35 ' '

/-- A model response carrying all six fields, with the spec's scenario-1
currency values. -/
def fullJsonResp : Str :=
  pys "\x7b\"issuer\":\"X\",\"card_last4\":\"1111\",\"statement_date\":\"2024-01-01\",\"due_date\":\"2024-01-25\",\"total_balance\":\"$1,234.56\",\"minimum_payment\":\"$50.00\"\x7d"

/-- The normalized field mapping `parse` produces from `fullJsonResp`. -/
def fullDataNorm : Obj :=
  [(pys "issuer", .jstr (pys "X")),
   (pys "card_last4", .jstr (pys "1111")),
   (pys "statement_date", .jstr (pys "2024-01-01")),
   (pys "due_date", .jstr (pys "2024-01-25")),
   (pys "total_balance", .jstr (pys "1234.56")),
   (pys "minimum_payment", .jstr (pys "50.00"))]

/-!
Helper lemmas
-/

theorem objGet_objSet_same (d : Obj) (k : Str) (v : JVal) :
    objGet (objSet d k v) k = some v := by
  induction d with
  | nil => simp [objSet, objGet]
  | cons kv rest ih =>
    obtain ⟨k', v'⟩ := kv
    by_cases h : k' = k <;> simp [objSet, objGet, h, ih]

theorem objGet_objSet_other (d : Obj) (k f : Str) (v : JVal) (h : f ≠ k) :
    objGet (objSet d k v) f = objGet d f := by
  induction d with
  | nil =>
    simp only [objSet, objGet]
    rw [if_neg fun he : k = f => h he.symm]
  | cons kv rest ih =>
    obtain ⟨k', v'⟩ := kv
    by_cases hk : k' = k
    · subst hk
      simp only [objSet, if_pos rfl, objGet]
      rw [if_neg fun he : k' = f => h he.symm, if_neg fun he : k' = f => h he.symm]
    · simp only [objSet, if_neg hk, objGet]
      by_cases hf : k' = f
      · rw [if_pos hf, if_pos hf]
      · rw [if_neg hf, if_neg hf]
        exact ih

theorem repairIssuer_issuer_isSome (d : Obj) (t : Str) :
    (objGet (repairIssuer d t) issuerKey).isSome = true := by
  unfold repairIssuer
  cases h : issuerMissing d with
  | true => simp [objGet_objSet_same]
  | false =>
    simp only [h, Bool.false_eq_true, if_false]
    unfold issuerMissing at h
    cases hv : objGet d issuerKey with
    | none => rw [hv] at h; cases h
    | some v => simp [hv]

theorem repairIssuer_other (d : Obj) (t f : Str) (hf : f ≠ issuerKey) :
    objGet (repairIssuer d t) f = objGet d f := by
  unfold repairIssuer
  cases h : issuerMissing d with
  | true => simp [h, objGet_objSet_other _ _ _ _ hf]
  | false => simp [h]

theorem objGet_cleanKey_isSome (d : Obj) (k f : Str) :
    (objGet (cleanKey d k) f).isSome = (objGet d f).isSome := by
  unfold cleanKey
  cases h : objGet d k with
  | none => rfl
  | some v =>
    by_cases hs : jeqStr v sentinel = true
    · simp [h, hs]
    · simp only [h, hs, if_neg, Bool.false_eq_true, if_false]
      by_cases hf : f = k
      · subst hf
        simp [objGet_objSet_same, h]
      · simp [objGet_objSet_other _ _ _ _ hf]

theorem objGet_cleanNumeric_isSome (d : Obj) (f : Str) :
    (objGet (cleanNumeric d) f).isSome = (objGet d f).isSome := by
  unfold cleanNumeric
  rw [objGet_cleanKey_isSome, objGet_cleanKey_isSome]

theorem parseInner_ok_shape {k : Option Str} {p : Except Str (List Page)}
    {m : Except Str Str} {r : ParseResult} (h : parseInner k p m = .ok r) :
    (r.success = false ∧ r.error.isSome = true) ∨
      ∃ kvs txt, r = successFrom kvs txt := by
  unfold parseInner at h
  split at h
  · cases h
  · split at h
    · cases h
      left
      exact ⟨rfl, rfl⟩
    · split at h
      · cases h
      · unfold analyzeResponse at h
        split at h
        · split at h
          · cases h
            left
            exact ⟨rfl, rfl⟩
          · cases h
            right
            exact ⟨_, _, rfl⟩
          · cases h
        · cases h

theorem parse_success_shape {k : Option Str} {p : Except Str (List Page)}
    {m : Except Str Str} (h : (parse k p m).success = true) :
    ∃ kvs txt, parse k p m = successFrom kvs txt := by
  unfold parse at h ⊢
  cases hx : parseInner k p m with
  | error e =>
    have h' : (mkFail e).success = true := by
      rw [hx] at h
      exact h
    cases h'
  | ok r =>
    rw [hx] at h
    have h' : r.success = true := h
    rcases parseInner_ok_shape hx with ⟨hs, _⟩ | ⟨kvs, txt, rfl⟩
    · rw [hs] at h'
      cases h'
    · exact ⟨kvs, txt, rfl⟩

theorem successFrom_data (kvs : Obj) (t : Str) :
    (successFrom kvs t).data = some (cleanNumeric (repairIssuer kvs t)) := rfl

theorem successFrom_rate (kvs : Obj) (t : Str) :
    (successFrom kvs t).success_rate =
      some (roundTo1 ((countExtracted (cleanNumeric (repairIssuer kvs t)) : ℚ) / 5 * 100)) := rfl

theorem countExtracted_le_five (d : Obj) : countExtracted d ≤ 5 := by
  have h := List.length_filter_le (fun f => fieldOk d f) requiredFields
  simpa [requiredFields, countExtracted] using h

theorem roundTo1_rate (e : Nat) (he : e ≤ 5) :
    roundTo1 ((e : ℚ) / 5 * 100) = (e : ℚ) * 20 := by
  interval_cases e <;> decide

theorem countExtracted_eq_five_iff (d : Obj) :
    countExtracted d = 5 ↔ ∀ f ∈ requiredFields, fieldOk d f = true := by
  unfold countExtracted
  constructor
  · intro h
    have hs := List.filter_sublist (p := fun f => fieldOk d f) requiredFields
    have heq := hs.eq_of_length (by rw [h]; rfl)
    exact fun f hf => List.filter_eq_self.mp heq f hf
  · intro h
    rw [List.filter_eq_self.mpr h]
    rfl

theorem dropWhile_append_all {q : Char → Bool} {l₁ l₂ : Str}
    (h : ∀ x ∈ l₁, q x = true) :
    List.dropWhile q (l₁ ++ l₂) = List.dropWhile q l₂ := by
  induction l₁ with
  | nil => rfl
  | cons a tl ih =>
    rw [List.cons_append, List.dropWhile_cons, if_pos (h a (by simp))]
    exact ih fun x hx => h x (by simp [hx])

theorem query_groq_missing {k : Option Str} (hk : credMissing k = true)
    (m : Except Str Str) : query_groq k m = .error groqKeyMsg := by
  simp [query_groq, hk]

theorem query_groq_ok {k : Option Str} (hk : credMissing k = false) (rt : Str) :
    query_groq k (.ok rt) = .ok rt := by
  simp [query_groq, hk]

theorem query_groq_error {k : Option Str} (hk : credMissing k = false) (e : Str) :
    query_groq k (.error e) = .error (groqErrMsg e) := by
  simp [query_groq, hk]

theorem parseInner_eval {p : Except Str (List Page)} {t : Str}
    (k : Option Str) (m : Except Str Str)
    (hp : extract_text_from_pdf p = .ok t) (ht : ¬pyStrip t = []) :
    parseInner k p m =
      (match query_groq k m with
        | .error e => .error e
        | .ok rt => analyzeResponse rt t) := by
  unfold parseInner
  split
  · rename_i e he
    rw [hp] at he
    cases he
  · rename_i pdfText he
    rw [hp] at he
    cases he
    rw [if_neg ht]

theorem parse_of_parseInner_error {k : Option Str} {p : Except Str (List Page)}
    {m : Except Str Str} {e : Str} (h : parseInner k p m = .error e) :
    parse k p m = mkFail e := by
  unfold parse
  rw [h]

theorem parse_of_parseInner_ok {k : Option Str} {p : Except Str (List Page)}
    {m : Except Str Str} {r : ParseResult} (h : parseInner k p m = .ok r) :
    parse k p m = r := by
  unfold parse
  rw [h]

/-!
Claims
-/

/-- C1: counterexample.  The claim says the fatal conditions reach `parse`'s
caller as a raised exception "rather than being returned as a value".  With a
missing credential (and a readable document, so the check is reached), the
exception is indeed raised inside the pipeline (`parseInner` ends in an
exception in flight), but `parse`'s own `except Exception` handler catches it
and hands the caller the value `{'success': False, 'error': ...}` — the call
`parse(...)` returns normally, refuting the claim at this input. -/
theorem C1_counterexample :
    parseInner none samplePdf (.ok (pys "resp")) = .error groqKeyMsg ∧
    parse none samplePdf (.ok (pys "resp")) = mkFail groqKeyMsg :=
  ⟨rfl, rfl⟩

/-- C1 (amended): each fatal condition is raised as an exception by the
component that detects it and aborts the pipeline body (`parseInner` ends in
`Except.error` with the documented message) — the missing-credential check
fires before the model outcome is ever consulted (the conclusion holds for
every `m`) — but `parse`'s top-level handler catches the exception and
returns it to the caller as the value `{'success': False, 'error': str(e)}`,
not as a raised exception. -/
theorem C1_amended_fatals_caught :
    (∀ (k : Option Str) (p : Except Str (List Page)) (m : Except Str Str) (t : Str),
      credMissing k = true → extract_text_from_pdf p = .ok t → pyStrip t ≠ [] →
      parseInner k p m = .error groqKeyMsg ∧ parse k p m = mkFail groqKeyMsg) ∧
    (∀ (k : Option Str) (e : Str) (m : Except Str Str),
      parseInner k (.error e) m = .error (pdfErrMsg e) ∧
      parse k (.error e) m = mkFail (pdfErrMsg e)) ∧
    (∀ (k : Option Str) (p : Except Str (List Page)) (t e : Str),
      credMissing k = false → extract_text_from_pdf p = .ok t → pyStrip t ≠ [] →
      parseInner k p (.error e) = .error (groqErrMsg e) ∧
      parse k p (.error e) = mkFail (groqErrMsg e)) := by
  refine ⟨?_, ?_, ?_⟩
  · intro k p m t hk hp ht
    have hi : parseInner k p m = .error groqKeyMsg := by
      rw [parseInner_eval k m hp ht, query_groq_missing hk]
    exact ⟨hi, parse_of_parseInner_error hi⟩
  · intro k e m
    exact ⟨rfl, rfl⟩
  · intro k p t e hk hp ht
    have hi : parseInner k p (.error e) = .error (groqErrMsg e) := by
      rw [parseInner_eval k (.error e) hp ht, query_groq_error hk]
    exact ⟨hi, parse_of_parseInner_error hi⟩

/-- C1: witness for the amended theorem at concrete inputs (missing
credential, unreadable document, failing model call). -/
theorem C1_witness :
    (parseInner none samplePdf (.ok (pys "r1")) = .error groqKeyMsg ∧
      parse none samplePdf (.ok (pys "r1")) = mkFail groqKeyMsg) ∧
    (parseInner sampleKey (.error (pys "boom")) (.ok (pys "r1")) = .error (pdfErrMsg (pys "boom")) ∧
      parse sampleKey (.error (pys "boom")) (.ok (pys "r1")) = mkFail (pdfErrMsg (pys "boom"))) ∧
    (parseInner sampleKey samplePdf (.error (pys "down")) = .error (groqErrMsg (pys "down")) ∧
      parse sampleKey samplePdf (.error (pys "down")) = mkFail (groqErrMsg (pys "down"))) :=
  ⟨C1_amended_fatals_caught.1 none samplePdf (.ok (pys "r1")) sampleText rfl rfl (by decide),
   C1_amended_fatals_caught.2.1 sampleKey (pys "boom") (.ok (pys "r1")),
   C1_amended_fatals_caught.2.2 sampleKey samplePdf sampleText (pys "down") rfl rfl (by decide)⟩

/-- C10: for every credential state, document outcome and model outcome,
`parse` returns a dictionary (it is a total function of the collaborator
outcomes — the outer `except Exception` converts every raised exception into
a return value), with a Boolean `success` key, and whenever `success` is
false an `error` message is present. -/
theorem C10_parse_total_success_error :
    ∀ (k : Option Str) (p : Except Str (List Page)) (m : Except Str Str),
      (parse k p m).success = true ∨
        ((parse k p m).success = false ∧ (parse k p m).error.isSome = true) := by
  intro k p m
  unfold parse
  cases hx : parseInner k p m with
  | error e =>
    right
    exact ⟨rfl, rfl⟩
  | ok r =>
    rcases parseInner_ok_shape hx with ⟨hs, he⟩ | ⟨kvs, txt, rfl⟩
    · right
      exact ⟨hs, he⟩
    · left
      rfl

/-- C7: for every input field mapping, whenever one of the two keys is absent
the generator returns no insights, and whenever both re-parsed numeric values
exist but one is non-positive — or a re-parse fails, which the hypothesis
makes vacuous for that branch — the generator returns no insights; the
embedding is a total function, mirroring the `except (ValueError, TypeError)`
and outer `except Exception` that keep the source from raising. -/
theorem C7_insights_soft_fail :
    ∀ (d : Obj),
      (∀ bv mv, objGet d (pys "total_balance") = some bv →
        objGet d (pys "minimum_payment") = some mv →
        ∀ b mq : ℚ, pyFloat (insClean bv) = some b → pyFloat (insClean mv) = some mq →
          b ≤ 0 ∨ mq ≤ 0) →
      generate_insights d = [] := by
  intro d h
  unfold generate_insights
  cases hbv : objGet d (pys "total_balance") with
  | none => rfl
  | some bv =>
    cases hmv : objGet d (pys "minimum_payment") with
    | none => rfl
    | some mv =>
      show insightsFromVals (pyFloat (insClean bv)) (pyFloat (insClean mv)) = []
      generalize hb : pyFloat (insClean bv) = ob
      cases ob with
      | none => rfl
      | some b =>
        generalize hm : pyFloat (insClean mv) = om
        cases om with
        | none => rfl
        | some mq =>
          have hor := h bv mv hbv hmv b mq hb hm
          have hno : ¬(0 < b ∧ 0 < mq) := by
            rcases hor with h1 | h1
            · exact fun hc => absurd hc.1 (not_lt.mpr h1)
            · exact fun hc => absurd hc.2 (not_lt.mpr h1)
          show (if 0 < b ∧ 0 < mq then insightRules b mq else []) = []
          rw [if_neg hno]

/-- C7: witness — scenario 4 of the spec (`balance=0`, `minimum_payment=50`):
the positivity guard fails and no insights are produced. -/
theorem C7_witness :
    generate_insights [(pys "total_balance", JVal.jstr (pys "0")),
      (pys "minimum_payment", JVal.jstr (pys "50"))] = [] := by
  refine C7_insights_soft_fail _ ?_
  intro bv mv hbv hmv b mq hb hm
  have hbv' : some (JVal.jstr (pys "0")) = some bv := hbv
  cases hbv'
  have hb0 : pyFloat (insClean (JVal.jstr (pys "0"))) = some (0 : ℚ) := by decide
  rw [hb0] at hb
  cases hb
  left
  exact le_refl 0

/-- C8: counterexample.  The claim triggers optical recognition "exactly when
embedded extraction yields no text or fewer than 40 characters"; this page's
embedded text has raw length 45 (and is non-empty), yet the source tests the
whitespace-STRIPPED length (`len(text.strip()) < 40`), so OCR is invoked and
its output replaces the embedded text. -/
theorem C8_counterexample :
    paddedPageText.length = 45 ∧
    paddedPageText ≠ [] ∧
    ocrInvoked { embedded := some paddedPageText, ocr := .ok (pys "OCRTEXT") } = true ∧
    resolvePage { embedded := some paddedPageText, ocr := .ok (pys "OCRTEXT") } = pys "OCRTEXT" :=
  ⟨by decide, by decide, by decide, by decide⟩

/-- C8 (amended): optical recognition is invoked exactly when the embedded
text is absent, empty, or shorter than 40 characters AFTER stripping
whitespace; when it is not invoked the OCR outcome is never consulted and the
resolved text is the embedded text verbatim; a failed OCR resolves the page
to the empty string; and document-level extraction on a decodable document
always succeeds, whatever the pages hold. -/
theorem C8_amended_ocr_trigger :
    (∀ (emb : Str) (o o' : Except Str Str),
      ocrInvoked { embedded := some emb, ocr := o } = false →
      resolvePage { embedded := some emb, ocr := o } = emb ∧
      resolvePage { embedded := some emb, ocr := o' } = emb) ∧
    (∀ (p : Page) (e : Str), ocrInvoked p = true → p.ocr = .error e →
      resolvePage p = []) ∧
    (∀ pages : List Page,
      extract_text_from_pdf (.ok pages) = .ok (joinNL (pages.map resolvePage))) := by
  refine ⟨?_, ?_, ?_⟩
  · intro emb o o' h
    have h' : ocrInvoked { embedded := some emb, ocr := o' } = false := h
    exact ⟨by simp [resolvePage, h], by simp [resolvePage, h']⟩
  · intro p e h he
    unfold resolvePage
    rw [if_pos h, he]
  · intro pages
    rfl

/-- C8: witness — a legible page resolves to its embedded text under either
OCR outcome; a page with no embedded text and failing OCR resolves to the
empty string; the empty document still extracts successfully. -/
theorem C8_witness :
    (resolvePage { embedded := some sampleText, ocr := .ok [] } = sampleText ∧
      resolvePage { embedded := some sampleText, ocr := .error (pys "x") } = sampleText) ∧
    resolvePage { embedded := none, ocr := .error (pys "ocr failed") } = [] ∧
    extract_text_from_pdf (.ok []) = .ok [] :=
  ⟨C8_amended_ocr_trigger.1 sampleText (.ok []) (.error (pys "x")) (by decide),
   C8_amended_ocr_trigger.2.1 { embedded := none, ocr := .error (pys "ocr failed") }
     (pys "ocr failed") rfl rfl,
   C8_amended_ocr_trigger.2.2 []⟩

/-- C4: counterexample.  The claim promises recovery of the embedded object
"regardless of the prefix and suffix text"; it fails as soon as the suffix
itself contains a closing brace.  Here the output is `'{"a":"1"} x}'` — the
well-formed object `{"a":"1"}` with empty prefix and suffix `' x}'` — but the
slice runs from the first opening to the LAST closing brace, hands
`'{"a":"1"} x}'` to the decoder, and decoding fails: the object is not
recovered and the parse returns failure. -/
theorem C4_counterexample :
    jsonLoads (pys "\x7b\"a\":\"1\"\x7d") = .ok (.jobj [(pys "a", .jstr (pys "1"))]) ∧
    pys "\x7b\"a\":\"1\"\x7d x\x7d" = ([] : Str) ++ pys "\x7b\"a\":\"1\"\x7d" ++ pys " x\x7d" ∧
    braceSlice (pys "\x7b\"a\":\"1\"\x7d x\x7d") ≠ pys "\x7b\"a\":\"1\"\x7d" ∧
    jsonLoads (braceSlice (pys "\x7b\"a\":\"1\"\x7d x\x7d")) = .error (pys "Extra data") ∧
    (parse sampleKey samplePdf (.ok (pys "\x7b\"a\":\"1\"\x7d x\x7d"))).success = false :=
  ⟨rfl, rfl, by decide, rfl, rfl⟩

/-- C4 (amended): for every model output of the form `prefix ++ obj ++ suffix`
where the prefix contains no opening brace, the suffix contains no closing
brace, and `obj` starts with an opening and ends with a closing brace (as
every serialized JSON object does), the repair slice from the first opening
brace to the last closing brace is exactly `obj` — the decoder receives the
embedded object verbatim — and the brace-presence guard is satisfied. -/
theorem C4_amended_brace_recovery :
    ∀ (pre obj suf : Str), lbrace ∉ pre → rbrace ∉ suf →
      obj.head? = some lbrace → obj.getLast? = some rbrace →
      braceSlice (pre ++ obj ++ suf) = obj ∧
      lbrace ∈ pre ++ obj ++ suf ∧ rbrace ∈ pre ++ obj ++ suf := by
  intro pre obj suf hpre hsuf hhead hlast
  obtain ⟨tl, rfl⟩ : ∃ tl, obj = lbrace :: tl := by
    cases obj with
    | nil => cases hhead
    | cons a tl =>
      simp only [List.head?_cons, Option.some.injEq] at hhead
      exact ⟨tl, by rw [hhead]⟩
  obtain ⟨rest, hrev⟩ : ∃ rest, (lbrace :: tl).reverse = rbrace :: rest := by
    have hh : (lbrace :: tl).reverse.head? = some rbrace := by
      rw [List.head?_reverse]
      exact hlast
    cases hr : (lbrace :: tl).reverse with
    | nil => rw [hr] at hh; cases hh
    | cons a rest =>
      rw [hr] at hh
      simp only [List.head?_cons, Option.some.injEq] at hh
      exact ⟨rest, by rw [hh]⟩
  have hmem : rbrace ∈ lbrace :: tl := by
    rw [← List.mem_reverse, hrev]
    exact List.mem_cons_self _ _
  have hmem' : rbrace = lbrace ∨ rbrace ∈ tl := by simpa using hmem
  refine ⟨?_, by simp, by
    simp only [List.mem_append, List.mem_cons]
    tauto⟩
  unfold braceSlice
  have h1 : List.dropWhile (fun c => (c ≠ lbrace : Bool)) (pre ++ (lbrace :: tl) ++ suf)
      = (lbrace :: tl) ++ suf := by
    rw [List.append_assoc]
    rw [dropWhile_append_all (fun x hx => by
      have hne : x ≠ lbrace := fun he => hpre (he ▸ hx)
      simpa using hne)]
    rw [List.cons_append, List.dropWhile_cons]
    simp
  rw [h1, List.reverse_append]
  rw [dropWhile_append_all (fun x hx => by
    have hx' : x ∈ suf := List.mem_reverse.mp hx
    have hne : x ≠ rbrace := fun he => hsuf (he ▸ hx')
    simpa using hne)]
  rw [hrev, List.dropWhile_cons]
  rw [if_neg (by simp)]
  rw [← hrev, List.reverse_reverse]

/-- C4: witness for the amended theorem — prose on both sides with no stray
braces: recovery is exact. -/
theorem C4_witness :
    braceSlice (pys "Sure: " ++ pys "\x7b\"a\":\"1\"\x7d" ++ pys " done") = pys "\x7b\"a\":\"1\"\x7d" ∧
    lbrace ∈ pys "Sure: " ++ pys "\x7b\"a\":\"1\"\x7d" ++ pys " done" ∧
    rbrace ∈ pys "Sure: " ++ pys "\x7b\"a\":\"1\"\x7d" ++ pys " done" :=
  C4_amended_brace_recovery (pys "Sure: ") (pys "\x7b\"a\":\"1\"\x7d") (pys " done")
    (by decide) (by decide) (by decide) (by decide)

/-- C5: counterexample.  The output `'}{'` has no matched brace pair (no
closing brace at or after the first opening brace), yet because each brace
character merely OCCURS, the source takes the slice-and-decode path: the
empty slice fails decoding and the result is the decode-error failure with
the raw response retained — not the claimed "no JSON object" error. -/
theorem C5_counterexample :
    hasBracePair (pys "\x7d\x7b") = false ∧
    parse sampleKey samplePdf (.ok (pys "\x7d\x7b"))
      = decodeFail (pys "\x7d\x7b") (pys "Expecting value") ∧
    (decodeFail (pys "\x7d\x7b") (pys "Expecting value")).error ≠ some noJsonMsg ∧
    (decodeFail (pys "\x7d\x7b") (pys "Expecting value")).raw_response = some (pys "\x7d\x7b") ∧
    (decodeFail (pys "\x7d\x7b") (pys "Expecting value")).success = false :=
  ⟨rfl, rfl, by decide, rfl, rfl⟩

/-- C5 (amended): with a configured credential and readable non-empty text,
(a) an output in which one of the two brace characters does not occur at all
yields the non-fatal value `{'success': False, 'error': 'No JSON object found
in AI response'}`, and (b) an output whose brace slice fails to decode yields
the non-fatal decode-error value retaining the raw response; both are normal
return values of `parse`. -/
theorem C5_amended_nonfatal_repair :
    (∀ (k : Option Str) (p : Except Str (List Page)) (t rt : Str),
      credMissing k = false → extract_text_from_pdf p = .ok t → pyStrip t ≠ [] →
      ¬(lbrace ∈ rt ∧ rbrace ∈ rt) →
      parse k p (.ok rt) = mkFail noJsonMsg ∧ (mkFail noJsonMsg).success = false) ∧
    (∀ (k : Option Str) (p : Except Str (List Page)) (t rt dmsg : Str),
      credMissing k = false → extract_text_from_pdf p = .ok t → pyStrip t ≠ [] →
      (lbrace ∈ rt ∧ rbrace ∈ rt) → jsonLoads (braceSlice rt) = .error dmsg →
      parse k p (.ok rt) = decodeFail rt dmsg ∧
      (decodeFail rt dmsg).success = false ∧
      (decodeFail rt dmsg).raw_response = some rt) := by
  constructor
  · intro k p t rt hk hp ht hb
    have hi : parseInner k p (.ok rt) = .error noJsonMsg := by
      rw [parseInner_eval k (.ok rt) hp ht, query_groq_ok hk]
      show analyzeResponse rt t = .error noJsonMsg
      unfold analyzeResponse
      rw [if_neg hb]
    exact ⟨parse_of_parseInner_error hi, rfl⟩
  · intro k p t rt dmsg hk hp ht hb hj
    have hi : parseInner k p (.ok rt) = .ok (decodeFail rt dmsg) := by
      rw [parseInner_eval k (.ok rt) hp ht, query_groq_ok hk]
      show analyzeResponse rt t = .ok (decodeFail rt dmsg)
      unfold analyzeResponse
      rw [if_pos hb, hj]
    exact ⟨parse_of_parseInner_ok hi, rfl, rfl⟩

/-- C5: witness — a brace-free output fails with the "no JSON object" value;
an output with braces around undecodable content fails with the decode-error
value retaining the raw response. -/
theorem C5_witness :
    (parse sampleKey samplePdf (.ok (pys "no json here")) = mkFail noJsonMsg ∧
      (mkFail noJsonMsg).success = false) ∧
    (parse sampleKey samplePdf (.ok (pys "\x7b broken \x7d"))
        = decodeFail (pys "\x7b broken \x7d") (pys "Expecting value") ∧
      (decodeFail (pys "\x7b broken \x7d") (pys "Expecting value")).success = false ∧
      (decodeFail (pys "\x7b broken \x7d") (pys "Expecting value")).raw_response
        = some (pys "\x7b broken \x7d")) :=
  ⟨C5_amended_nonfatal_repair.1 sampleKey samplePdf sampleText (pys "no json here")
      rfl rfl (by decide) (by decide),
   C5_amended_nonfatal_repair.2 sampleKey samplePdf sampleText (pys "\x7b broken \x7d")
      (pys "Expecting value") rfl rfl (by decide) (by decide) rfl⟩

/-- C2: counterexample.  The claim promises all six keys in the returned
mapping whenever `success` is true, "regardless of which keys the model's
JSON object actually contained".  A model response of `'{}'` parses, the run
succeeds, yet the returned mapping holds only the repaired `issuer` key:
`card_last4` (and the other four) are absent — missing keys are never filled
with the sentinel. -/
theorem C2_counterexample :
    (parse sampleKey samplePdf (.ok (pys "\x7b\x7d"))).success = true ∧
    (parse sampleKey samplePdf (.ok (pys "\x7b\x7d"))).data
      = some [(issuerKey, JVal.jstr (pys "Unknown"))] ∧
    objGet [(issuerKey, JVal.jstr (pys "Unknown"))] (pys "card_last4") = none :=
  ⟨rfl, rfl, rfl⟩

/-- C2 (amended): for every successful parse the returned mapping always
contains the `issuer` key (extracted or repaired), and each of the five other
required keys is present in the result exactly when the model's decoded JSON
object contained it — issuer repair and numeric cleanup neither add nor drop
any other key, and absent keys are not filled with the sentinel. -/
theorem C2_amended_keys :
    ∀ (k : Option Str) (p : Except Str (List Page)) (m : Except Str Str),
      (parse k p m).success = true →
      ∃ kvs txt d, parse k p m = successFrom kvs txt ∧
        d = cleanNumeric (repairIssuer kvs txt) ∧
        (parse k p m).data = some d ∧
        (objGet d issuerKey).isSome = true ∧
        ∀ f ∈ requiredFields, (objGet d f).isSome = (objGet kvs f).isSome := by
  intro k p m h
  obtain ⟨kvs, txt, heq⟩ := parse_success_shape h
  refine ⟨kvs, txt, cleanNumeric (repairIssuer kvs txt), heq, rfl, ?_, ?_, ?_⟩
  · rw [heq]
    rfl
  · rw [objGet_cleanNumeric_isSome, repairIssuer_issuer_isSome]
  · intro f hf
    have hfne : f ≠ issuerKey := by
      simp only [requiredFields, List.mem_cons, List.not_mem_nil, or_false] at hf
      rcases hf with rfl | rfl | rfl | rfl | rfl <;> decide
    rw [objGet_cleanNumeric_isSome, repairIssuer_other kvs txt f hfne]

/-- C2: witness for the amended theorem at the `'{}'` response. -/
theorem C2_witness :
    (parse sampleKey samplePdf (.ok (pys "\x7b\x7d"))).success = true ∧
    (∃ kvs txt d, parse sampleKey samplePdf (.ok (pys "\x7b\x7d")) = successFrom kvs txt ∧
        d = cleanNumeric (repairIssuer kvs txt) ∧
        (parse sampleKey samplePdf (.ok (pys "\x7b\x7d"))).data = some d ∧
        (objGet d issuerKey).isSome = true ∧
        ∀ f ∈ requiredFields, (objGet d f).isSome = (objGet kvs f).isSome) :=
  ⟨rfl, C2_amended_keys sampleKey samplePdf (.ok (pys "\x7b\x7d")) rfl⟩

/-- C3: counterexample.  The claim counts a field as extracted when its value
is "present and not the sentinel"; the source additionally requires Python
truthiness (`data.get(f) and ...`).  With the model returning
`{"card_last4": ""}` the field is present and is not the sentinel — the
claimed formula gives 1/5 × 100 = 20.0 — but the empty string is falsy, so
the code reports success_rate 0.0. -/
theorem C3_counterexample :
    (parse sampleKey samplePdf (.ok (pys "\x7b\"card_last4\": \"\"\x7d"))).success = true ∧
    (parse sampleKey samplePdf (.ok (pys "\x7b\"card_last4\": \"\"\x7d"))).data
      = some [(pys "card_last4", JVal.jstr []), (issuerKey, JVal.jstr (pys "Unknown"))] ∧
    (parse sampleKey samplePdf (.ok (pys "\x7b\"card_last4\": \"\"\x7d"))).success_rate
      = some 0 ∧
    specExtractedCount [(pys "card_last4", JVal.jstr []), (issuerKey, JVal.jstr (pys "Unknown"))]
      = 1 ∧
    roundTo1 ((1 : ℚ) / 5 * 100) = 20 ∧
    (0 : ℚ) ≠ 20 :=
  ⟨rfl, rfl, by decide, by decide, by decide, by decide⟩

/-- C3 (amended): for every successful parse, `success_rate` equals the count
of the five non-issuer required fields whose value is present, truthy (in
particular non-empty) and not the sentinel, divided by 5, times 100, rounded
to one decimal place — which is exactly `count * 20` — and it always lies in
`[0, 100]`, equalling 100 exactly when all five of those fields pass that
test. -/
theorem C3_amended_success_rate :
    ∀ (k : Option Str) (p : Except Str (List Page)) (m : Except Str Str),
      (parse k p m).success = true →
      ∃ d, (parse k p m).data = some d ∧
        (parse k p m).success_rate = some (roundTo1 ((countExtracted d : ℚ) / 5 * 100)) ∧
        (parse k p m).success_rate = some ((countExtracted d : ℚ) * 20) ∧
        0 ≤ (countExtracted d : ℚ) * 20 ∧ (countExtracted d : ℚ) * 20 ≤ 100 ∧
        (((countExtracted d : ℚ) * 20 = 100) ↔ ∀ f ∈ requiredFields, fieldOk d f = true) := by
  intro k p m h
  obtain ⟨kvs, txt, heq⟩ := parse_success_shape h
  have hle : countExtracted (cleanNumeric (repairIssuer kvs txt)) ≤ 5 :=
    countExtracted_le_five _
  have hrate : (parse k p m).success_rate
      = some (roundTo1 ((countExtracted (cleanNumeric (repairIssuer kvs txt)) : ℚ) / 5 * 100)) := by
    rw [heq]
    rfl
  refine ⟨cleanNumeric (repairIssuer kvs txt), by rw [heq]; rfl, hrate, ?_, ?_, ?_, ?_⟩
  · rw [hrate, roundTo1_rate _ hle]
  · positivity
  · have hc : (countExtracted (cleanNumeric (repairIssuer kvs txt)) : ℚ) ≤ 5 := by
      exact_mod_cast hle
    linarith
  · constructor
    · intro h100
      have hq : (countExtracted (cleanNumeric (repairIssuer kvs txt)) : ℚ) = 5 := by linarith
      have he5 : countExtracted (cleanNumeric (repairIssuer kvs txt)) = 5 := by
        exact_mod_cast hq
      exact (countExtracted_eq_five_iff _).mp he5
    · intro hall
      have he5 := (countExtracted_eq_five_iff _).mpr hall
      rw [he5]
      norm_num

/-- C3: witness for the amended theorem — the all-six-fields response scores
5/5, i.e. success_rate 100. -/
theorem C3_witness :
    (parse sampleKey samplePdf (.ok fullJsonResp)).success = true ∧
    (∃ d, (parse sampleKey samplePdf (.ok fullJsonResp)).data = some d ∧
      (parse sampleKey samplePdf (.ok fullJsonResp)).success_rate
        = some (roundTo1 ((countExtracted d : ℚ) / 5 * 100)) ∧
      (parse sampleKey samplePdf (.ok fullJsonResp)).success_rate
        = some ((countExtracted d : ℚ) * 20) ∧
      0 ≤ (countExtracted d : ℚ) * 20 ∧ (countExtracted d : ℚ) * 20 ≤ 100 ∧
      (((countExtracted d : ℚ) * 20 = 100) ↔ ∀ f ∈ requiredFields, fieldOk d f = true)) :=
  ⟨rfl, C3_amended_success_rate sampleKey samplePdf (.ok fullJsonResp) rfl⟩

/-- C6: counterexample.  The claim runs issuer repair "exactly when the
model's issuer value is absent or the sentinel".  Here the issuer value is
PRESENT and is NOT the sentinel — it is the empty string — yet the source's
trigger (`not data.get('issuer') or ...`) also fires on any falsy value, so
repair runs and overwrites it from the document text. -/
theorem C6_counterexample :
    objGet [(issuerKey, JVal.jstr [])] issuerKey = some (JVal.jstr []) ∧
    jeqStr (JVal.jstr []) sentinel = false ∧
    repairIssuer [(issuerKey, JVal.jstr [])] (pys "citibank statement")
      = [(issuerKey, JVal.jstr (pys "Citi"))] ∧
    repairIssuer [(issuerKey, JVal.jstr [])] (pys "citibank statement")
      ≠ [(issuerKey, JVal.jstr [])] := by
  refine ⟨rfl, rfl, rfl, ?_⟩
  intro hcontra
  have h2 := congrArg (fun d => objGet d issuerKey) hcontra
  have h3 : some (JVal.jstr (pys "Citi")) = some (JVal.jstr ([] : Str)) := h2
  injection h3 with h4
  injection h4 with h5
  cases h5

/-- C6 (amended): issuer repair runs exactly when the model's issuer value is
absent, Python-falsy (e.g. the empty string, null, zero or false) or the
sentinel; when it runs it lower-cases the full acquired text and applies the
ordered (issuer, keyword set) rule list — HSBC, Chase, American Express (via
"amex" or "american express"), Citi, Discover, Capital One — first match
winning, no match yielding "Unknown"; text containing both "chase" and "citi"
(and no earlier keyword) resolves to Chase. -/
theorem C6_amended_issuer_repair :
    (∀ (d : Obj) (t : Str), issuerMissing d = false → repairIssuer d t = d) ∧
    (∀ (d : Obj) (t : Str), issuerMissing d = true →
      objGet (repairIssuer d t) issuerKey = some (JVal.jstr (inferIssuer t))) ∧
    (∀ t : Str, inferIssuer t = inferIssuerOrdered t) ∧
    inferIssuer (pys "statement from Chase containing Citi too") = pys "Chase" := by
  refine ⟨?_, ?_, ?_, by decide⟩
  · intro d t h
    simp [repairIssuer, h]
  · intro d t h
    simp [repairIssuer, h, objGet_objSet_same]
  · intro t
    unfold inferIssuer inferIssuerOrdered issuerRules
    cases h1 : containsSub (pyLower t) (pys "hsbc") <;>
    cases h2 : containsSub (pyLower t) (pys "chase") <;>
    cases h3 : containsSub (pyLower t) (pys "amex") <;>
    cases h4 : containsSub (pyLower t) (pys "american express") <;>
    cases h5 : containsSub (pyLower t) (pys "citi") <;>
    cases h6 : containsSub (pyLower t) (pys "discover") <;>
    cases h7 : containsSub (pyLower t) (pys "capital one") <;>
    simp [h1, h2, h3, h4, h5, h6, h7, List.find?, List.any]

/-- C6: witness — a truthy non-sentinel issuer is left alone; a missing
issuer is repaired to the inferred name; the cascade agrees with the ordered
rule list at a sample text. -/
theorem C6_witness :
    repairIssuer [(issuerKey, JVal.jstr (pys "HSBC"))] (pys "x")
      = [(issuerKey, JVal.jstr (pys "HSBC"))] ∧
    objGet (repairIssuer [] sampleText) issuerKey
      = some (JVal.jstr (inferIssuer sampleText)) ∧
    inferIssuer (pys "hello CitiBank") = inferIssuerOrdered (pys "hello CitiBank") :=
  ⟨C6_amended_issuer_repair.1 [(issuerKey, JVal.jstr (pys "HSBC"))] (pys "x") (by decide),
   C6_amended_issuer_repair.2.1 [] sampleText rfl,
   C6_amended_issuer_repair.2.2.1 (pys "hello CitiBank")⟩

/-- C9: counterexample.  The interest formula is the claimed
`balance × 0.18 × (months_to_payoff / 12)`, but its value at balance 1234.56
and minimum payment 50.00 is exactly 457.24151808 — about 457.24, not the
claimed ≈ 457.99 (the difference, ≈ 0.75, far exceeds any rounding at two
decimals) — and the emitted critical insight accordingly displays 457.24. -/
theorem C9_counterexample :
    estimatedInterest (123456 / 100) 50 = 45724151808 / 100000000 ∧
    ¬((45799 : ℚ) / 100 - 45724151808 / 100000000 ≤ 1 / 200) ∧
    containsSub (longPayoffInsight (123456 / 100) 50).message (pys "457.24") = true ∧
    containsSub (longPayoffInsight (123456 / 100) 50).message (pys "457.99") = false :=
  ⟨by decide, by decide, by decide, by decide⟩

/-- C9 (amended): end-to-end scenario — the model returns
total_balance "$1,234.56" and minimum_payment "$50.00"; normalization yields
"1234.56"/"50.00"; months_to_payoff = 24.6912 exceeds 24, so the critical
insight is emitted with estimated interest
balance × 0.18 × (months_to_payoff / 12) = 457.24151808 exactly, displayed
as 457.24 (the savings tip also fires, after it, in rule order). -/
theorem C9_amended_scenario :
    (parse sampleKey samplePdf (.ok fullJsonResp)).success = true ∧
    (parse sampleKey samplePdf (.ok fullJsonResp)).data = some fullDataNorm ∧
    objGet fullDataNorm (pys "total_balance") = some (JVal.jstr (pys "1234.56")) ∧
    objGet fullDataNorm (pys "minimum_payment") = some (JVal.jstr (pys "50.00")) ∧
    monthsToPayoff (123456 / 100) 50 = 246912 / 10000 ∧
    (24 : ℚ) < monthsToPayoff (123456 / 100) 50 ∧
    estimatedInterest (123456 / 100) 50
      = (123456 / 100 : ℚ) * (18 / 100) * (monthsToPayoff (123456 / 100) 50 / 12) ∧
    estimatedInterest (123456 / 100) 50 = 45724151808 / 100000000 ∧
    generate_insights fullDataNorm
      = [longPayoffInsight (123456 / 100) 50, smartPaymentInsight (123456 / 100) 50] ∧
    (longPayoffInsight (123456 / 100) 50).type = pys "critical" ∧
    (longPayoffInsight (123456 / 100) 50).message
      = pys "Paying minimum only will take 24 months. Estimated interest: " ++
          rupee ++ pys "457.24" :=
  ⟨rfl, rfl, rfl, rfl, by decide, by decide, rfl, by decide, by decide, rfl, by decide⟩

end CCParse
